import Mathlib

/-!
# Verification of the key-sequence resolution and transformation-accumulation engine

This development is a shallow embedding, in Lean 4, of the state-manipulation
core of a modal text-editing command interpreter (a Vim emulation layer).
The embedded functions are translated from `src/src/state/vimState.ts`:

* the `VimState` cursor setters (`cursorStopPosition`, `cursors`),
* `DocumentContentChangeAction.addChanges` / `compressChanges`,
* `CommandNumber.exec` / `doesActionApply` (count accumulation),
* `CommandRegister.exec` (register selection),
* `CommandRecordMacro.exec` / `CommandQuitRecordMacro.exec` (macro recording),
* the two `SneakHighlighter` versions (`generateMarkers` / `getMarkPosition`).

External helper types that the repository imports from modules not present in
the sample (`Position` validity, the register table, marker generation) are
modelled from the specification; each such definition carries a doc comment
saying so.
-/

/-! ## Basic data model: positions, ranges, cursors -/

/-- A zero-based (line, character) position, as in `vscode.Position`
(spec §3: "Position: (line, column) — zero-based, half-open addressing"). -/
structure Pos where
  line : Nat
  character : Nat
deriving DecidableEq, Repr

/-- A half-open range with a start and an end position, as in `vscode.Range`. -/
structure VSRange where
  start : Pos
  stop : Pos
deriving DecidableEq, Repr

/-- Modelled from the spec: the external text buffer is consumed through a
narrow interface (`lineCount`, `lineAt(n).length`).  We represent an editor
document as the list of its line lengths. -/
def Editor := List Nat

/-- Modelled from the spec: a position is valid for an editor when its line
exists in the buffer and its character fits on that line (zero-based,
half-open addressing into the external text buffer).  Stands in for
`Position.isValid(editor)`, whose source is not part of the sample. -/
def Pos.isValid (editor : Editor) (p : Pos) : Bool :=
  decide (p.line < editor.length) && decide (p.character ≤ editor.getD p.line 0)

/-- A cursor: an ordered pair of positions (spec §3: "Cursor: an ordered pair
(anchor, active) of Positions"; the source calls them `start` and `stop`).
Equality is structural, which underlies deduplication. -/
structure Cursor where
  start : Pos
  stop : Pos
deriving DecidableEq, Repr

/-- `Cursor.withNewStop(value)`: same cursor with a replaced stop position. -/
def Cursor.withNewStop (c : Cursor) (value : Pos) : Cursor :=
  { c with stop := value }

/-- `Cursor.withNewStart(value)`: same cursor with a replaced start position. -/
def Cursor.withNewStart (c : Cursor) (value : Pos) : Cursor :=
  { c with start := value }

/-- Modelled from the spec: `Cursor.isValid(editor)` holds when both of the
cursor's positions are valid for the editor. -/
def Cursor.isValid (editor : Editor) (c : Cursor) : Bool :=
  c.start.isValid editor && c.stop.isValid editor

/-! ## JavaScript `Map` insertion order semantics

The source deduplicates cursors and stores sneak markers through a JS `Map`
keyed by a structural serialization (`cursor.toString()`).  A JS `Map.set`
replaces the value of an existing key in place (keeping its original
insertion position) and appends a fresh key at the end.  We model the map as
an association list with exactly those semantics. -/

def jsMapSet {κ α : Type} [DecidableEq κ] :
    List (κ × α) → κ → α → List (κ × α)
  | [], k, v => [(k, v)]
  | (k₀, v₀) :: rest, k, v =>
    if k₀ = k then (k₀, v) :: rest else (k₀, v₀) :: jsMapSet rest k v

def jsMapGet {κ α : Type} [DecidableEq κ] : List (κ × α) → κ → Option α
  | [], _ => none
  | (k₀, v₀) :: rest, k => if k₀ = k then some v₀ else jsMapGet rest k

/-- `map.values()` in insertion order. -/
def jsMapValues {κ α : Type} (m : List (κ × α)) : List α :=
  m.map Prod.snd

/-! ## Content-change events and the compression of `DocumentContentChangeAction` -/

/-- `vscode.TextDocumentContentChangeEvent`: a replacement of the text in
`range` (at flat document offset `rangeOffset`, replacing `rangeLength`
characters) by `text`. -/
structure TextDocumentContentChangeEvent where
  range : VSRange
  rangeOffset : Nat
  rangeLength : Nat
  text : String
deriving DecidableEq, Repr

/-- JavaScript `s.slice(a, b)` for `0 ≤ a ≤ b` (the only case the source
exercises): the characters of `s` from index `a` up to `min b s.length`. -/
def jsSlice (s : String) (a b : Nat) : String :=
  String.mk ((s.data.take b).drop a)

/-- JavaScript `s.slice(a)`: the characters of `s` from index `a` on. -/
def jsSliceFrom (s : String) (a : Nat) : String :=
  String.mk (s.data.drop a)

/-- The inner `merge` of `DocumentContentChangeAction.compressChanges`:
either concatenates (first's end offset meets second's start offset, or the
second replaces nothing), splices (the second replaces part of the first's
inserted text), or declines (`undefined` in the source). -/
def mergeContentChanges (first second : TextDocumentContentChangeEvent) :
    Option TextDocumentContentChangeEvent :=
  if first.rangeOffset + first.text.length = second.rangeOffset ∨
      second.rangeLength = 0 then
    -- Simple concatenation
    some { text := first.text ++ second.text
           range := first.range
           rangeOffset := first.rangeOffset
           rangeLength := first.rangeLength }
  else if first.rangeOffset ≤ second.rangeOffset ∧
      second.rangeLength ≤ first.text.length then
    -- `second` replaces part of `first`
    let start := second.rangeOffset - first.rangeOffset
    let stop := start + second.rangeLength
    some { text := jsSlice first.text 0 start ++ second.text ++
             jsSliceFrom first.text stop
           range := first.range
           rangeOffset := first.rangeOffset
           rangeLength := first.rangeLength }
  else
    none

/-- One step of the compression loop: `prev` is the pending change; a merge
extends it, a failed merge flushes it to the output. -/
def compressStep
    (acc : List TextDocumentContentChangeEvent × Option TextDocumentContentChangeEvent)
    (change : TextDocumentContentChangeEvent) :
    List TextDocumentContentChangeEvent × Option TextDocumentContentChangeEvent :=
  match acc.2 with
  | none => (acc.1, some change)
  | some prev =>
    match mergeContentChanges prev change with
    | some merged => (acc.1, some merged)
    | none => (acc.1 ++ [prev], some change)

/-- `DocumentContentChangeAction.compressChanges`: fold the change list,
merging adjacent events where possible. -/
def compressChanges (changes : List TextDocumentContentChangeEvent) :
    List TextDocumentContentChangeEvent :=
  let r := changes.foldl compressStep ([], none)
  match r.2 with
  | none => r.1
  | some prev => r.1 ++ [prev]

/-- `DocumentContentChangeAction.addChanges`: append the new events to the
stored ones, then compress. -/
def addChanges (contentChanges changes : List TextDocumentContentChangeEvent) :
    List TextDocumentContentChangeEvent :=
  compressChanges (contentChanges ++ changes)

/-! ## The pending command (`RecordedState`) and count accumulation -/

/-- An entry of `RecordedState.actionsRun`.  For count accumulation only the
`instanceof CommandNumber` test matters, so actions are tagged as number
actions (carrying their digit) or other actions (carrying an opaque id). -/
inductive Act where
  | number (n : Nat)
  | other (id : Nat)
deriving DecidableEq, Repr

/-- The `instanceof CommandNumber` test. -/
def Act.isCommandNumber : Act → Bool
  | .number _ => true
  | .other _ => false

/-- The pending command (the source's `RecordedState`, spec §3
"PendingCommand"): accumulated count, operator count, register name and the
ordered list of actions run so far. -/
structure RecordedState where
  count : Nat := 0
  operatorCount : Nat := 0
  registerName : String := "\""
  actionsRun : List Act := []
deriving DecidableEq, Repr

/-- `vimState.recordedState.actionsRun[actionsRun.length - 2]`: the action
before the currently executing one (a JS out-of-bounds index yields
`undefined`, modelled as `none`). -/
def lastActionBeforeCurrent (actionsRun : List Act) : Option Act :=
  if actionsRun.length < 2 then none else actionsRun.get? (actionsRun.length - 2)

/-- `CommandNumber.exec`: fold the pressed digit `num` into the pending
count, multiplying by the operator count when a count is entered after an
operator. -/
def commandNumberExec (num : Nat) (rs : RecordedState) : RecordedState :=
  let operatorCount := rs.operatorCount
  if operatorCount > 0 then
    let lastAction := lastActionBeforeCurrent rs.actionsRun
    if ¬ lastAction.any Act.isCommandNumber then
      -- an operatorCount was set after an operator and now another count
      -- number arrives, so the two multiply
      { rs with count := operatorCount * num }
    else
      -- another digit: multiply by 10 and add the digit times operatorCount
      { rs with count := rs.count * 10 + num * operatorCount }
  else
    { rs with count := rs.count * 10 + num }

/-- `CommandNumber.doesActionApply`: the base applicability check plus the
rule that `0` only applies as a count digit when a count is already
accumulated. -/
def commandNumberDoesActionApply (superApplies : Bool) (rs : RecordedState)
    (keysPressed : List String) : Bool :=
  let isZero := decide (keysPressed.getD 0 "" = "0")
  superApplies && ((isZero && decide (rs.count > 0)) || !isZero)

/-- A keystroke relevant to count accumulation: a digit or an operator key. -/
inductive Key where
  | digit (d : Nat)
  | operatorKey
deriving DecidableEq, Repr

/-- Modelled from the spec: the dispatcher appends each executing action to
`actionsRun` before its `exec` runs (the source's `exec` reads index
`length - 2` as "the action before this one"), and an operator key stores the
pending count into `operatorCount` ("Immediately after an operator is set,
the next digits accumulate into operatorCount instead") — that transfer lives
outside the sampled file. -/
def pressKey (rs : RecordedState) : Key → RecordedState
  | .digit d =>
    commandNumberExec d { rs with actionsRun := rs.actionsRun ++ [Act.number d] }
  | .operatorKey =>
    { rs with operatorCount := rs.count, count := 0,
              actionsRun := rs.actionsRun ++ [Act.other 0] }

/-- Press a sequence of keys starting from a pending command state. -/
def pressKeys (rs : RecordedState) (keys : List Key) : RecordedState :=
  keys.foldl pressKey rs

/-! ## Register selection (`CommandRegister`) -/

/-- Modelled from the spec: the valid register alphabet — "Registers are
keyed by a restricted alphabet (letters, digits, `"`, `#`, etc.)"; the
`Register.isValidRegister` source is not part of the sample.  We model it as
single-character names drawn from letters, digits and the usual special
registers. -/
def isValidRegister (register : String) : Bool :=
  match register.data with
  | [c] => c.isAlpha || c.isDigit ||
      [ '"', '#', '-', '.', ':', '%', '+', '=', '_', '/', '*'].contains c
  | _ => false

/-- The state the register-selection action touches: the pending command's
register name and the action's own `isCompleteAction` flag (initially
`false`, since the action normally awaits the rest of the command). -/
structure CommandRegisterState where
  registerName : Option String
  isCompleteAction : Bool
deriving DecidableEq, Repr

/-- `CommandRegister.exec`: a valid register key is stored in the pending
command; an invalid one flips `isCompleteAction` to `true`, ending the
action as a no-op. -/
def commandRegisterExec (keysPressed : List String) (st : CommandRegisterState) :
    CommandRegisterState :=
  let register := keysPressed.getD 1 ""
  if isValidRegister register then
    { st with registerName := some register }
  else
    { st with isCompleteAction := true }

/-! ## Macro recording (`CommandRecordMacro` / `CommandQuitRecordMacro`) -/

/-- Modelled from the spec: "RegisterContent: either literal text with a
wise-mode tag or a recorded PendingCommand sequence (for macros)".  A
recorded entry keeps the register name it was created with, as the source's
`RecordedState` object does. -/
inductive RegisterContent where
  | recorded (registerName : String) (actionsRun : List Act)
  | text (s : String)
deriving DecidableEq, Repr

/-- Modelled from the spec: the process-wide register table, "an explicit
table keyed by register name, mutated only through the register-write
operation".  `Register.put`/`Register.get`/`Register.has` are not part of
the sample; they are modelled as association-list update and lookup. -/
def Registers := List (String × RegisterContent)

/-- `registerKey.toLocaleLowerCase()`. -/
def sLower (s : String) : String :=
  String.mk (s.data.map Char.toLower)

/-- The JS regex test `/^[A-Z]+$/.test(registerKey)`. -/
def regexAllUpper (s : String) : Bool :=
  !s.data.isEmpty && s.data.all (fun c => decide ('A' ≤ c) && decide (c ≤ 'Z'))

/-- The slice of `VimState` that macro recording touches: the active
recording (the source's `VimState.macro` field, `none` when not recording),
the pending command, and the register table. -/
structure RecordingVimState where
  recording : Option RecordedState
  recordedState : RecordedState
  registers : List (String × RegisterContent)
deriving Repr

/-- `CommandRecordMacro.exec` (`q<register>`): start a fresh recording named
by the lower-cased register key; unless the key is upper-case and the
register already exists (the append case), also overwrite the register with
a fresh empty recorded state. -/
def commandRecordExec (registerKey : String) (vs : RecordingVimState) :
    RecordingVimState :=
  let register := sLower registerKey
  let vs₁ := { vs with recording := some (RecordedState.mk 0 0 register []) }
  if ¬ (regexAllUpper registerKey ∧ (jsMapGet vs₁.registers register).isSome) then
    { vs₁ with
      recordedState := { vs₁.recordedState with registerName := register },
      registers := jsMapSet vs₁.registers register (RegisterContent.recorded register []) }
  else
    vs₁

/-- Modelled from the spec: while a recording is active, each resolved action
is appended to it (`appendToMacro`); that append lives outside the sampled
file. -/
def recordActions (vs : RecordingVimState) (actions : List Act) : RecordingVimState :=
  match vs.recording with
  | none => vs
  | some m =>
    { vs with recording := some { m with actionsRun := m.actionsRun ++ actions } }

/-- `CommandQuitRecordMacro.exec` (`q` while recording): if the target
register currently holds a recorded state, the newly recorded actions are
concatenated after its existing actions; then the active recording is
cleared.  (`doesActionApply` guarantees a recording is active; on `none`
this is a no-op.) -/
def commandQuitRecordExec (vs : RecordingVimState) : RecordingVimState :=
  match vs.recording with
  | none => vs
  | some m =>
    let registers :=
      match jsMapGet vs.registers m.registerName with
      | some (RegisterContent.recorded name actions) =>
        jsMapSet vs.registers m.registerName
          (RegisterContent.recorded name (actions ++ m.actionsRun))
      | _ => vs.registers
    { vs with registers := registers, recording := none }

/-! ## The cursor setters of `VimState` -/

/-- The warnings `VimState`'s logger can emit from the cursor setters. -/
inductive StateWarning where
  | emptyCursors
  | invalidCursor
  | invalidCursorStop
deriving DecidableEq, Repr

/-- The origin cursor, used both as the initializer of `VimState._cursors`
and as the out-of-bounds fallback when indexing the cursor list. -/
def dfltCursor : Cursor := Cursor.mk (Pos.mk 0 0) (Pos.mk 0 0)

/-- The `VimState.cursorStopPosition` setter: warn when the new position is
invalid for the editor, then assign `cursors[0].withNewStop(value)`
unconditionally. -/
def setCursorStopPosition (editor : Editor) (cursors : List Cursor) (value : Pos) :
    List Cursor × List StateWarning :=
  let warnings :=
    if ¬ value.isValid editor then [StateWarning.invalidCursorStop] else []
  (cursors.set 0 ((cursors.getD 0 dfltCursor).withNewStop value), warnings)

/-- The `VimState.cursors` setter: reject (warn, keep the old set) an empty
assignment; otherwise warn for each invalid cursor and store the values of a
JS `Map` keyed by the cursor's structural serialization (`cursor.toString()`
prints the start and stop coordinates, so the key is the cursor itself
up to structural equality). -/
def setCursors (editor : Editor) (old value : List Cursor) :
    List Cursor × List StateWarning :=
  if value.isEmpty then
    (old, [StateWarning.emptyCursors])
  else
    let warnings :=
      (value.filter (fun c => ¬ c.isValid editor)).map (fun _ => StateWarning.invalidCursor)
    let m := value.foldl (fun m c => jsMapSet m c c) ([] : List (Cursor × Cursor))
    (jsMapValues m, warnings)

/-- First-seen-order deduplication by structural equality, following the
spec's words for §4.3 `setCursors` ("deduplicates by structural equality,
preserving first-seen order"); used to compare against the `Map`-based
source behaviour. -/
def dedupKeepFirst (value : List Cursor) : List Cursor :=
  value.foldl (fun acc c => if c ∈ acc then acc else acc ++ [c]) []

/-! ## The two `SneakHighlighter` versions -/

/-- `SneakHighlighter.generateMarkers`, first (earlier) version: walk the
ranges to highlight, ask the marker generator for a label for each index and
start position, record `name ↦ collapsed range` in the `markers` map, and
stop at the first exhausted label.  The generator argument abstracts the
`MarkerGenerator` both versions construct identically from the range count
and the configured label targets. -/
def generateMarkersLoopV1 (gen : Nat → Pos → Option String) :
    Nat → List VSRange → List (String × VSRange) → List (String × VSRange)
  | _, [], markers => markers
  | index, r :: rest, markers =>
    match gen index (Pos.mk r.start.line r.start.character) with
    | some name =>
      generateMarkersLoopV1 gen (index + 1) rest
        (jsMapSet markers name (VSRange.mk r.start r.start))
    | none => markers

/-- First version's `generateMarkers` entry point over an existing marker
map. -/
def sneakGenerateMarkersV1 (gen : Nat → Pos → Option String)
    (ranges : List VSRange) (markers : List (String × VSRange)) :
    List (String × VSRange) :=
  generateMarkersLoopV1 gen 0 ranges markers

/-- First version's `getMarkPosition`: look the marker up and return its
range's start position, or `undefined`. -/
def getMarkPositionV1 (markers : List (String × VSRange)) (marker : String) :
    Option Pos :=
  match jsMapGet markers marker with
  | none => none
  | some markerRange => some (Pos.mk markerRange.start.line markerRange.start.character)

/-- `SneakHighlighter.generateMarkers`, second (later) version, which takes
the editor as a parameter elsewhere but whose marker loop reads the same
ranges and generator. -/
def generateMarkersLoopV2 (gen : Nat → Pos → Option String) :
    Nat → List VSRange → List (String × VSRange) → List (String × VSRange)
  | _, [], markers => markers
  | index, r :: rest, markers =>
    match gen index (Pos.mk r.start.line r.start.character) with
    | some name =>
      generateMarkersLoopV2 gen (index + 1) rest
        (jsMapSet markers name (VSRange.mk r.start r.start))
    | none => markers

/-- Second version's `generateMarkers` entry point. -/
def sneakGenerateMarkersV2 (gen : Nat → Pos → Option String)
    (ranges : List VSRange) (markers : List (String × VSRange)) :
    List (String × VSRange) :=
  generateMarkersLoopV2 gen 0 ranges markers

/-- Second version's `getMarkPosition`. -/
def getMarkPositionV2 (markers : List (String × VSRange)) (marker : String) :
    Option Pos :=
  match jsMapGet markers marker with
  | none => none
  | some markerRange => some (Pos.mk markerRange.start.line markerRange.start.character)

/-! ## Resolution of a lone `0` -/

/-- What a pressed `0` resolves to. -/
inductive ZeroResolution where
  | countDigit
  | moveToColumnZero
deriving DecidableEq, Repr

/-- Modelled from the spec: when the number action does not apply to the key
`0`, the key resolves to the "move to column 0" action instead ("`0` alone is
the move-to-column-0 action, not a count digit"); the column-0 motion itself
lives outside the sampled file. -/
def resolveZeroKey (superApplies : Bool) (rs : RecordedState) : ZeroResolution :=
  if commandNumberDoesActionApply superApplies rs ["0"] then
    ZeroResolution.countDigit
  else
    ZeroResolution.moveToColumnZero

/-! ## Concrete sample values used by witnesses and counterexamples -/

/-- A fresh pending command, as built by `new RecordedState()`. -/
def RecordedState.initial : RecordedState := {}

/-- The initializer of `VimState._cursors`: a single cursor at the origin. -/
def initialCursors : List Cursor := [dfltCursor]

/-- A one-line editor whose line has length 5. -/
def editorOneLine : Editor := [5]

/-- A position on line 10 of a one-line document: invalid for
`editorOneLine`. -/
def invalidPos : Pos := Pos.mk 10 0

/-- A sample cursor. -/
def cursorA : Cursor := Cursor.mk (Pos.mk 1 2) (Pos.mk 3 4)

/-- The first content change of the spec's compression example:
`{range=[0,0)-[0,0), text="f"}`. -/
def evF : TextDocumentContentChangeEvent :=
  { range := VSRange.mk (Pos.mk 0 0) (Pos.mk 0 0), rangeOffset := 0,
    rangeLength := 0, text := "f" }

/-- The second content change of the spec's compression example:
`{range=[0,1)-[0,1), text="oo"}`. -/
def evOo : TextDocumentContentChangeEvent :=
  { range := VSRange.mk (Pos.mk 0 1) (Pos.mk 0 1), rangeOffset := 1,
    rangeLength := 0, text := "oo" }

/-- A change inserting `"abc"` at offset 0. -/
def exSplice1 : TextDocumentContentChangeEvent :=
  { range := VSRange.mk (Pos.mk 0 0) (Pos.mk 0 0), rangeOffset := 0,
    rangeLength := 0, text := "abc" }

/-- A change replacing offsets `[2, 4)` — which reaches past the end of
`exSplice1`'s inserted text — by `"XY"`. -/
def exSplice2 : TextDocumentContentChangeEvent :=
  { range := VSRange.mk (Pos.mk 0 2) (Pos.mk 0 4), rangeOffset := 2,
    rangeLength := 2, text := "XY" }

/-- A change inserting `"x"` at offset 5. -/
def exKeep1 : TextDocumentContentChangeEvent :=
  { range := VSRange.mk (Pos.mk 0 5) (Pos.mk 0 5), rangeOffset := 5,
    rangeLength := 0, text := "x" }

/-- A change replacing offsets `[0, 3)` by `"y"`: mergeable with `exKeep1`
in no way. -/
def exKeep2 : TextDocumentContentChangeEvent :=
  { range := VSRange.mk (Pos.mk 0 0) (Pos.mk 0 3), rangeOffset := 0,
    rangeLength := 3, text := "y" }

/-- A register table in which register `a` holds a recorded state with one
action (the "foo" of the spec's macro-append example). -/
def regTable0 : List (String × RegisterContent) :=
  [("a", RegisterContent.recorded "a" [Act.other 1])]

/-- A session state with no active recording and `regTable0` as registers. -/
def recVS0 : RecordingVimState :=
  { recording := none, recordedState := RecordedState.initial, registers := regTable0 }

/-- A pending command just after `2 d 3` was pressed (the current `3` already
appended to `actionsRun`, its `exec` not yet run). -/
def rsAfterOperator : RecordedState :=
  { count := 0, operatorCount := 2,
    actionsRun := [Act.number 2, Act.other 0, Act.number 3] }

/-- A pending command just after `2 d 3 1` was pressed (the current `1`
already appended, its `exec` not yet run). -/
def rsAfterFirstDigit : RecordedState :=
  { count := 6, operatorCount := 2,
    actionsRun := [Act.number 2, Act.other 0, Act.number 3, Act.number 1] }

/-- A register-selection state with a previously chosen register and the
action still incomplete. -/
def stRegister0 : CommandRegisterState :=
  { registerName := some "x", isCompleteAction := false }

/-! ## Helper lemmas -/

lemma char_toLower_of_lower {c : Char} (h : 'a' ≤ c) : c.toLower = c := by
  unfold Char.toLower
  have h97 : 97 ≤ c.toNat := by
    simp [Char.le_def] at h
    exact h
  have hn : ¬ (c.toNat ≥ 65 ∧ c.toNat ≤ 90) := by omega
  simp [hn]

lemma char_not_le_Z_of_lower {c : Char} (h : 'a' ≤ c) : ¬ (c ≤ 'Z') := by
  simp [Char.le_def, UInt32.le_def, BitVec.le_def, BitVec.lt_def] at h ⊢
  omega

lemma jsMapGet_set_self {κ α : Type} [DecidableEq κ] (m : List (κ × α)) (k : κ) (v : α) :
    jsMapGet (jsMapSet m k v) k = some v := by
  induction m with
  | nil => simp [jsMapSet, jsMapGet]
  | cons p rest ih =>
    obtain ⟨k₀, v₀⟩ := p
    by_cases h : k₀ = k
    · simp [jsMapSet, jsMapGet, h]
    · simp [jsMapSet, jsMapGet, h, ih]

lemma jsMapSet_diag {κ : Type} [DecidableEq κ] (m : List (κ × κ)) (k : κ)
    (hm : ∀ p ∈ m, p.1 = p.2) : ∀ p ∈ jsMapSet m k k, p.1 = p.2 := by
  induction m with
  | nil => simp [jsMapSet]
  | cons q rest ih =>
    obtain ⟨k₀, v₀⟩ := q
    have hq : k₀ = v₀ := hm (k₀, v₀) (by simp)
    intro p hp
    by_cases h : k₀ = k
    · simp [jsMapSet, h] at hp
      rcases hp with hp | hp
      · simp [hp]
      · exact hm p (by simp [hp])
    · simp [jsMapSet, h] at hp
      rcases hp with hp | hp
      · simp [hp, hq]
      · exact ih (fun q hq₂ => hm q (by simp [hq₂])) p hp

lemma jsMapValues_set_diag {κ : Type} [DecidableEq κ] (m : List (κ × κ)) (k : κ)
    (hm : ∀ p ∈ m, p.1 = p.2) :
    jsMapValues (jsMapSet m k k) =
      if k ∈ jsMapValues m then jsMapValues m else jsMapValues m ++ [k] := by
  induction m with
  | nil => simp [jsMapSet, jsMapValues]
  | cons q rest ih =>
    obtain ⟨k₀, v₀⟩ := q
    have hq : k₀ = v₀ := hm (k₀, v₀) (by simp)
    subst hq
    by_cases h : k₀ = k
    · subst h
      simp [jsMapSet, jsMapValues]
    · have ih₂ := ih (fun q hq₂ => hm q (by simp [hq₂]))
      simp only [jsMapSet, if_neg h, jsMapValues, List.map_cons] at ih₂ ⊢
      rw [ih₂]
      by_cases hk : k ∈ rest.map Prod.snd
      · simp [hk, h]
      · simp [hk, h, Ne.symm h]

lemma foldl_jsMapSet_values {κ : Type} [DecidableEq κ] (value : List κ) :
    ∀ (m : List (κ × κ)), (∀ p ∈ m, p.1 = p.2) →
      jsMapValues (value.foldl (fun m c => jsMapSet m c c) m) =
        value.foldl (fun acc c => if c ∈ acc then acc else acc ++ [c]) (jsMapValues m) := by
  induction value with
  | nil => intro m _; simp
  | cons c rest ih =>
    intro m hm
    simp only [List.foldl_cons]
    rw [ih _ (jsMapSet_diag m c hm), jsMapValues_set_diag m c hm]

lemma setCursors_fst_eq_dedup (editor : Editor) (old value : List Cursor)
    (h : value ≠ []) :
    (setCursors editor old value).1 = dedupKeepFirst value := by
  cases value with
  | nil => exact absurd rfl h
  | cons c rest =>
    simp only [setCursors, List.isEmpty_cons, Bool.false_eq_true, if_false]
    rw [foldl_jsMapSet_values _ _ (by simp)]
    rfl

lemma dedup_foldl_ne_nil (l : List Cursor) :
    ∀ acc : List Cursor, acc ≠ [] →
      l.foldl (fun acc c => if c ∈ acc then acc else acc ++ [c]) acc ≠ [] := by
  induction l with
  | nil => intro acc h; simpa using h
  | cons c rest ih =>
    intro acc h
    simp only [List.foldl_cons]
    by_cases hc : c ∈ acc
    · exact ih _ (by simp [hc, h])
    · exact ih _ (by simp [hc])

lemma dedupKeepFirst_ne_nil (value : List Cursor) (h : value ≠ []) :
    dedupKeepFirst value ≠ [] := by
  cases value with
  | nil => exact absurd rfl h
  | cons c rest =>
    simp only [dedupKeepFirst, List.foldl_cons]
    exact dedup_foldl_ne_nil rest _ (by simp)

lemma dedup_foldl_nodup (l : List Cursor) :
    ∀ acc : List Cursor, acc.Nodup →
      (l.foldl (fun acc c => if c ∈ acc then acc else acc ++ [c]) acc).Nodup := by
  induction l with
  | nil => intro acc h; simpa using h
  | cons c rest ih =>
    intro acc h
    simp only [List.foldl_cons]
    by_cases hc : c ∈ acc
    · exact ih _ (by simp [hc, h])
    · refine ih _ ?_
      simp only [if_neg hc]
      rw [← List.concat_eq_append]
      exact List.Nodup.concat hc h

lemma dedupKeepFirst_nodup (value : List Cursor) : (dedupKeepFirst value).Nodup :=
  dedup_foldl_nodup value [] List.nodup_nil

/-! ## Claim theorems -/

/-- C1: post-operator count accumulation in `CommandNumber.exec`: the first
digit after an operator sets `count = operatorCount * digit`, each following
digit sets `count = count * 10 + digit * operatorCount`, and pressing
`2 d 3 1` accumulates a count of 62. -/
theorem commandNumber_operator_count_accumulation :
    (∀ (rs : RecordedState) (num : Nat),
      0 < rs.operatorCount →
      (lastActionBeforeCurrent rs.actionsRun).any Act.isCommandNumber = false →
      (commandNumberExec num rs).count = rs.operatorCount * num) ∧
    (∀ (rs : RecordedState) (num : Nat),
      0 < rs.operatorCount →
      (lastActionBeforeCurrent rs.actionsRun).any Act.isCommandNumber = true →
      (commandNumberExec num rs).count = rs.count * 10 + num * rs.operatorCount) ∧
    (pressKeys RecordedState.initial
      [Key.digit 2, Key.operatorKey, Key.digit 3, Key.digit 1]).count = 62 := by
  refine ⟨?_, ?_, by decide⟩
  · intro rs num h1 h2
    simp [commandNumberExec, h1, h2]
  · intro rs num h1 h2
    simp [commandNumberExec, h1, h2]

theorem commandNumber_operator_count_accumulation_witness :
    (commandNumberExec 3 rsAfterOperator).count = rsAfterOperator.operatorCount * 3 ∧
    (commandNumberExec 1 rsAfterFirstDigit).count =
      rsAfterFirstDigit.count * 10 + 1 * rsAfterFirstDigit.operatorCount :=
  ⟨commandNumber_operator_count_accumulation.1 rsAfterOperator 3 (by decide) (by decide),
   commandNumber_operator_count_accumulation.2.1 rsAfterFirstDigit 1 (by decide) (by decide)⟩

/-- C2 counterexample: assigning an invalid cursor stop position is *not* a
pure no-op that retains the previous state — the invalid position is stored.
With a one-line editor, assigning the invalid position (10, 0) changes the
stored cursors. -/
theorem cursorStop_invalid_retention_counterexample :
    Pos.isValid editorOneLine invalidPos = false ∧
    (setCursorStopPosition editorOneLine initialCursors invalidPos).1 ≠ initialCursors := by
  decide

/-- C2 (amended): an invalid cursor position assignment is logged and raises
no error, but the assignment still takes effect: the first cursor's stop
becomes the invalid position, and a non-empty cursor list is stored
(deduplicated) no matter the validity of its members; only the empty-list
assignment retains the previous set. -/
theorem cursors_invalid_logged_but_assigned (editor : Editor)
    (cursors : List Cursor) (value : Pos) (newCursors : List Cursor)
    (hv : value.isValid editor = false) (hc : cursors ≠ [])
    (hn : newCursors ≠ []) :
    (setCursorStopPosition editor cursors value).2 = [StateWarning.invalidCursorStop] ∧
    (setCursorStopPosition editor cursors value).1.getD 0 dfltCursor =
      (cursors.getD 0 dfltCursor).withNewStop value ∧
    (setCursors editor cursors newCursors).1 = dedupKeepFirst newCursors ∧
    (setCursors editor cursors []).1 = cursors := by
  refine ⟨?_, ?_, setCursors_fst_eq_dedup editor cursors newCursors hn, ?_⟩
  · simp [setCursorStopPosition, hv]
  · cases cursors with
    | nil => exact absurd rfl hc
    | cons c rest => simp [setCursorStopPosition]
  · simp [setCursors]

theorem cursors_invalid_logged_but_assigned_witness :
    (setCursorStopPosition editorOneLine initialCursors invalidPos).2 =
      [StateWarning.invalidCursorStop] ∧
    (setCursorStopPosition editorOneLine initialCursors invalidPos).1.getD 0 dfltCursor =
      (initialCursors.getD 0 dfltCursor).withNewStop invalidPos ∧
    (setCursors editorOneLine initialCursors [cursorA, cursorA]).1 =
      dedupKeepFirst [cursorA, cursorA] ∧
    (setCursors editorOneLine initialCursors []).1 = initialCursors :=
  cursors_invalid_logged_but_assigned editorOneLine initialCursors invalidPos
    [cursorA, cursorA] (by decide) (by decide) (by decide)

/-- C3: the cursor set is never empty: assigning an empty list is rejected
with a warning and keeps the prior set, a non-empty prior set stays
non-empty under both setters, and the initial cursor set is non-empty. -/
theorem setCursors_rejects_empty (editor : Editor) (old value : List Cursor)
    (p : Pos) (hold : old ≠ []) :
    setCursors editor old [] = (old, [StateWarning.emptyCursors]) ∧
    (setCursors editor old value).1 ≠ [] ∧
    (setCursorStopPosition editor old p).1 ≠ [] ∧
    initialCursors ≠ [] := by
  refine ⟨by simp [setCursors], ?_, ?_, by decide⟩
  · cases value with
    | nil => simpa [setCursors] using hold
    | cons c rest =>
      rw [setCursors_fst_eq_dedup editor old (c :: rest) (by simp)]
      exact dedupKeepFirst_ne_nil _ (by simp)
  · intro h
    have := congrArg List.length h
    simp [setCursorStopPosition] at this
    exact hold this

theorem setCursors_rejects_empty_witness :
    setCursors editorOneLine initialCursors [] =
      (initialCursors, [StateWarning.emptyCursors]) ∧
    (setCursors editorOneLine initialCursors [cursorA]).1 ≠ [] ∧
    (setCursorStopPosition editorOneLine initialCursors invalidPos).1 ≠ [] ∧
    initialCursors ≠ [] :=
  setCursors_rejects_empty editorOneLine initialCursors [cursorA] invalidPos (by decide)

/-- C4: content-change compression merges two consecutive events by straight
concatenation when the first's end offset equals the second's start offset
or the second replaces nothing, keeping the first's range and offset; in
particular `{[0,0), "f"}` then `{[0,1), "oo"}` compresses to
`{[0,0), "foo"}`. -/
theorem contentChange_concat_compression :
    (∀ e₁ e₂ : TextDocumentContentChangeEvent,
      e₁.rangeOffset + e₁.text.length = e₂.rangeOffset ∨ e₂.rangeLength = 0 →
      compressChanges [e₁, e₂] =
        [{ range := e₁.range, rangeOffset := e₁.rangeOffset,
           rangeLength := e₁.rangeLength, text := e₁.text ++ e₂.text }]) ∧
    addChanges [] [evF, evOo] =
      [{ range := VSRange.mk (Pos.mk 0 0) (Pos.mk 0 0), rangeOffset := 0,
         rangeLength := 0, text := "foo" }] := by
  refine ⟨?_, by decide⟩
  intro e₁ e₂ h
  have hm : mergeContentChanges e₁ e₂ =
      some { range := e₁.range, rangeOffset := e₁.rangeOffset,
             rangeLength := e₁.rangeLength, text := e₁.text ++ e₂.text } := by
    unfold mergeContentChanges
    rw [if_pos h]
  simp [compressChanges, compressStep, hm]

theorem contentChange_concat_compression_witness :
    compressChanges [evF, evOo] =
      [{ range := evF.range, rangeOffset := evF.rangeOffset,
         rangeLength := evF.rangeLength, text := evF.text ++ evOo.text }] :=
  contentChange_concat_compression.1 evF evOo (by decide)

/-- C5 counterexample: when neither the concatenation rule nor full
containment applies, the source does *not* always keep the two changes
separate: for `exSplice1` (insert `"abc"` at 0) followed by `exSplice2`
(replace `[2,4)` by `"XY"`), whose replaced range reaches past the first
change's text, the splice branch still fires and merges them into one
change with text `"abXY"`. -/
theorem contentChange_keep_separate_counterexample :
    (¬ (exSplice1.rangeOffset + exSplice1.text.length = exSplice2.rangeOffset ∨
      exSplice2.rangeLength = 0)) ∧
    (¬ (exSplice2.rangeOffset + exSplice2.rangeLength ≤
      exSplice1.rangeOffset + exSplice1.text.length)) ∧
    compressChanges [exSplice1, exSplice2] ≠ [exSplice1, exSplice2] ∧
    compressChanges [exSplice1, exSplice2] =
      [{ range := exSplice1.range, rangeOffset := 0, rangeLength := 0,
         text := "abXY" }] := by
  decide

/-- C5 (amended): when the concatenation rule does not apply, two
consecutive changes merge by splice exactly when the first's offset is at
most the second's and the second's replaced length is at most the first's
text length (a condition implied by, but weaker than, full containment of
the second's replaced range in the first's output); in every other case both
changes are kept as separate entries in their original order, so no change
is dropped. -/
theorem contentChange_splice_or_keep (e₁ e₂ : TextDocumentContentChangeEvent)
    (hconcat : ¬ (e₁.rangeOffset + e₁.text.length = e₂.rangeOffset ∨
      e₂.rangeLength = 0)) :
    (e₁.rangeOffset ≤ e₂.rangeOffset ∧ e₂.rangeLength ≤ e₁.text.length →
      compressChanges [e₁, e₂] =
        [{ range := e₁.range, rangeOffset := e₁.rangeOffset,
           rangeLength := e₁.rangeLength,
           text := jsSlice e₁.text 0 (e₂.rangeOffset - e₁.rangeOffset) ++ e₂.text ++
             jsSliceFrom e₁.text (e₂.rangeOffset - e₁.rangeOffset + e₂.rangeLength) }]) ∧
    (¬ (e₁.rangeOffset ≤ e₂.rangeOffset ∧ e₂.rangeLength ≤ e₁.text.length) →
      compressChanges [e₁, e₂] = [e₁, e₂]) := by
  constructor
  · intro hsplice
    have hm : mergeContentChanges e₁ e₂ =
        some { range := e₁.range, rangeOffset := e₁.rangeOffset,
               rangeLength := e₁.rangeLength,
               text := jsSlice e₁.text 0 (e₂.rangeOffset - e₁.rangeOffset) ++ e₂.text ++
                 jsSliceFrom e₁.text (e₂.rangeOffset - e₁.rangeOffset + e₂.rangeLength) } := by
      unfold mergeContentChanges
      rw [if_neg hconcat, if_pos hsplice]
    simp [compressChanges, compressStep, hm]
  · intro hsplice
    have hm : mergeContentChanges e₁ e₂ = none := by
      unfold mergeContentChanges
      rw [if_neg hconcat, if_neg hsplice]
    simp [compressChanges, compressStep, hm]

theorem contentChange_splice_or_keep_witness :
    compressChanges [exSplice1, exSplice2] =
      [{ range := exSplice1.range, rangeOffset := exSplice1.rangeOffset,
         rangeLength := exSplice1.rangeLength,
         text := jsSlice exSplice1.text 0 (exSplice2.rangeOffset - exSplice1.rangeOffset) ++
           exSplice2.text ++
           jsSliceFrom exSplice1.text
             (exSplice2.rangeOffset - exSplice1.rangeOffset + exSplice2.rangeLength) }] ∧
    compressChanges [exKeep1, exKeep2] = [exKeep1, exKeep2] :=
  ⟨(contentChange_splice_or_keep exSplice1 exSplice2 (by decide)).1 (by decide),
   (contentChange_splice_or_keep exKeep1 exKeep2 (by decide)).2 (by decide)⟩

/-- C6: ending a recording with the quit-record key: a recording started
with an upper-case register key whose lower-case register already holds a
recorded state appends the newly recorded actions after the existing ones;
a recording started with a lower-case register key overwrites the register,
leaving only the newly recorded actions. -/
theorem record_quit_register_append_or_overwrite :
    (∀ (vs : RecordingVimState) (c : Char) (name : String) (foo bar : List Act),
      'A' ≤ c → c ≤ 'Z' →
      jsMapGet vs.registers (sLower (String.mk [c])) =
        some (RegisterContent.recorded name foo) →
      jsMapGet (commandQuitRecordExec
          (recordActions (commandRecordExec (String.mk [c]) vs) bar)).registers
          (sLower (String.mk [c])) =
        some (RegisterContent.recorded name (foo ++ bar))) ∧
    (∀ (vs : RecordingVimState) (c : Char) (bar : List Act),
      'a' ≤ c → c ≤ 'z' →
      jsMapGet (commandQuitRecordExec
          (recordActions (commandRecordExec (String.mk [c]) vs) bar)).registers
          (String.mk [c]) =
        some (RegisterContent.recorded (String.mk [c]) bar)) := by
  constructor
  · intro vs c name foo bar h1 h2 hget
    have hup : regexAllUpper (String.mk [c]) = true := by
      simp [regexAllUpper, h1, h2]
    have hsome : (jsMapGet vs.registers (sLower (String.mk [c]))).isSome = true := by
      rw [hget]; rfl
    simp [commandRecordExec, hup, hsome, recordActions, commandQuitRecordExec,
      hget, jsMapGet_set_self]
  · intro vs c bar h1 h2
    have hlow : sLower (String.mk [c]) = String.mk [c] := by
      simp [sLower, char_toLower_of_lower h1]
    have hnup : regexAllUpper (String.mk [c]) = false := by
      simp [regexAllUpper]
      intro _
      exact not_le.mp (char_not_le_Z_of_lower h1)
    simp [commandRecordExec, hlow, hnup, recordActions, commandQuitRecordExec,
      jsMapGet_set_self]

theorem record_quit_register_append_or_overwrite_witness :
    jsMapGet (commandQuitRecordExec
        (recordActions (commandRecordExec (String.mk ['A']) recVS0) [Act.other 2])).registers
        (sLower (String.mk ['A'])) =
      some (RegisterContent.recorded "a" ([Act.other 1] ++ [Act.other 2])) ∧
    jsMapGet (commandQuitRecordExec
        (recordActions (commandRecordExec (String.mk ['a']) recVS0) [Act.other 2])).registers
        (String.mk ['a']) =
      some (RegisterContent.recorded (String.mk ['a']) [Act.other 2]) :=
  ⟨record_quit_register_append_or_overwrite.1 recVS0 'A' "a" [Act.other 1] [Act.other 2]
      (by decide) (by decide) (by decide),
   record_quit_register_append_or_overwrite.2 recVS0 'a' [Act.other 2]
      (by decide) (by decide)⟩

/-- C7 counterexample: pressing `"` followed by a character outside the valid
register alphabet does *not* make `isCompleteAction` false — the source sets
it to `true` (the two-key sequence completes as a no-op); the pending
command's register name is left unchanged. -/
theorem commandRegister_invalid_counterexample :
    isValidRegister "(" = false ∧
    stRegister0.isCompleteAction = false ∧
    (commandRegisterExec ["\"", "("] stRegister0).isCompleteAction = true ∧
    (commandRegisterExec ["\"", "("] stRegister0).registerName =
      stRegister0.registerName := by
  decide

/-- C7 (amended): for every key pressed after `"` that is not in the valid
register alphabet, the register-selection action's `isCompleteAction`
becomes `true`, so the two-key sequence completes immediately as a no-op
for that key, leaving the pending command's register name unchanged. -/
theorem commandRegister_invalid_no_op (st : CommandRegisterState)
    (keysPressed : List String)
    (h : isValidRegister (keysPressed.getD 1 "") = false) :
    commandRegisterExec keysPressed st = { st with isCompleteAction := true } := by
  simp only [List.getD, List.get?_eq_getElem?] at h
  simp [commandRegisterExec, h]

theorem commandRegister_invalid_no_op_witness :
    commandRegisterExec ["\"", "("] stRegister0 =
      { stRegister0 with isCompleteAction := true } :=
  commandRegister_invalid_no_op stRegister0 ["\"", "("] (by decide)

/-- C8: the digit `0` applies as a count digit only when a count is already
accumulated: `CommandNumber.doesActionApply` on key `0` equals the base
applicability conjoined with `count > 0`, any other single key needs only
the base applicability, and a lone `0` with no accumulated count resolves
to the move-to-column-0 action rather than a count digit. -/
theorem commandNumber_zero_requires_count :
    (∀ (superApplies : Bool) (rs : RecordedState),
      commandNumberDoesActionApply superApplies rs ["0"] =
        (superApplies && decide (0 < rs.count))) ∧
    (∀ (superApplies : Bool) (rs : RecordedState) (key : String), key ≠ "0" →
      commandNumberDoesActionApply superApplies rs [key] = superApplies) ∧
    (∀ (superApplies : Bool) (rs : RecordedState), rs.count = 0 →
      resolveZeroKey superApplies rs = ZeroResolution.moveToColumnZero) ∧
    (∀ (rs : RecordedState), 0 < rs.count →
      resolveZeroKey true rs = ZeroResolution.countDigit) := by
  refine ⟨?_, ?_, ?_, ?_⟩
  · intro superApplies rs
    simp [commandNumberDoesActionApply]
  · intro superApplies rs key h
    simp [commandNumberDoesActionApply, h]
  · intro superApplies rs h
    simp [resolveZeroKey, commandNumberDoesActionApply, h]
  · intro rs h
    simp [resolveZeroKey, commandNumberDoesActionApply, h]

theorem commandNumber_zero_requires_count_witness :
    commandNumberDoesActionApply true RecordedState.initial ["1"] = true ∧
    resolveZeroKey true RecordedState.initial = ZeroResolution.moveToColumnZero ∧
    resolveZeroKey true rsAfterFirstDigit = ZeroResolution.countDigit :=
  ⟨commandNumber_zero_requires_count.2.1 true RecordedState.initial "1" (by decide),
   commandNumber_zero_requires_count.2.2.1 true RecordedState.initial (by decide),
   commandNumber_zero_requires_count.2.2.2 rsAfterFirstDigit (by decide)⟩

/-- C9: a non-empty list assigned to the cursors setter is deduplicated by
structural equality preserving first-seen order (it equals the first-seen
deduplication of the input and contains no duplicates); in particular
assigning `[cursorA, cursorA]` yields a cursor set of size 1. -/
theorem setCursors_deduplicates (editor : Editor) (old value : List Cursor)
    (h : value ≠ []) :
    (setCursors editor old value).1 = dedupKeepFirst value ∧
    ((setCursors editor old value).1).Nodup ∧
    (setCursors editorOneLine initialCursors [cursorA, cursorA]).1 = [cursorA] := by
  refine ⟨setCursors_fst_eq_dedup editor old value h, ?_, by decide⟩
  rw [setCursors_fst_eq_dedup editor old value h]
  exact dedupKeepFirst_nodup value

theorem setCursors_deduplicates_witness :
    (setCursors editorOneLine initialCursors [cursorA, cursorA]).1 =
      dedupKeepFirst [cursorA, cursorA] ∧
    ((setCursors editorOneLine initialCursors [cursorA, cursorA]).1).Nodup ∧
    (setCursors editorOneLine initialCursors [cursorA, cursorA]).1 = [cursorA] :=
  setCursors_deduplicates editorOneLine initialCursors [cursorA, cursorA] (by decide)

theorem generateMarkersLoop_versions_eq (gen : Nat → Pos → Option String) :
    ∀ (ranges : List VSRange) (index : Nat) (markers : List (String × VSRange)),
      generateMarkersLoopV1 gen index ranges markers =
        generateMarkersLoopV2 gen index ranges markers := by
  intro ranges
  induction ranges with
  | nil => intro index markers; rfl
  | cons r rest ih =>
    intro index markers
    simp only [generateMarkersLoopV1, generateMarkersLoopV2]
    cases gen index (Pos.mk r.start.line r.start.character) with
    | none => rfl
    | some name => exact ih _ _

/-- C10: the two `SneakHighlighter` versions agree on their marker logic:
for every marker generator, highlight-range list and pre-existing marker
table, both `generateMarkers` build identical marker tables, and
`getMarkPosition` returns the same position (or `none`) for every marker
string. -/
theorem sneakHighlighter_versions_equivalent (gen : Nat → Pos → Option String)
    (ranges : List VSRange) (markers : List (String × VSRange)) (marker : String) :
    sneakGenerateMarkersV1 gen ranges markers =
      sneakGenerateMarkersV2 gen ranges markers ∧
    getMarkPositionV1 (sneakGenerateMarkersV1 gen ranges markers) marker =
      getMarkPositionV2 (sneakGenerateMarkersV2 gen ranges markers) marker := by
  have h : sneakGenerateMarkersV1 gen ranges markers =
      sneakGenerateMarkersV2 gen ranges markers :=
    generateMarkersLoop_versions_eq gen ranges 0 markers
  refine ⟨h, ?_⟩
  rw [h]
  unfold getMarkPositionV1 getMarkPositionV2
  rfl
